import Mathlib

/- Shallow embedding of the BioReasoner forward-chaining core:
   src/bioreasoner/facts.py, src/bioreasoner/rules.py, src/bioreasoner/engine.py.
   Facts are opaque strings; a FactSet value is a finite set of strings. -/

/-- FactSet: the value held by the FactSet wrapper class (facts.py).  The
Python class wraps a mutable set of strings; the pure value it holds is a
finite set of strings.  The copy method is the identity on values; aliasing
and mutation are treated in the explicit-store model further below. -/
abbrev FactSet := Finset String

/-- Strict lexicographic order on lists of characters, by code point: the
comparison Python uses on str values.  Executable by structural recursion. -/
def charsLt : List Char → List Char → Bool
  | [], [] => false
  | [], _ :: _ => true
  | _ :: _, [] => false
  | a :: as, b :: bs => a < b || (a = b && charsLt as bs)

/-- Python string comparison (code-point lexicographic) on String values. -/
def strLt (a b : String) : Bool := charsLt a.data b.data

/-- Rule (rules.py, frozen dataclass Rule): condition set, conclusion set,
priority, and metadata. -/
structure Rule where
  name : String
  conditions : Finset String
  conclusions : Finset String
  priority : Int
  tags : Finset String
  description : Option String
  citation : Option String
deriving DecidableEq

/-- rules.py Rule.is_applicable: every condition is present in the facts. -/
def Rule.is_applicable (r : Rule) (facts : FactSet) : Bool :=
  decide (r.conditions ⊆ facts)

/-- rules.py Rule.new_facts_if_applied: the conclusions not yet present. -/
def Rule.new_facts_if_applied (r : Rule) (facts : FactSet) : Finset String :=
  r.conclusions \ facts

/-- The comparison of the sort keys (-priority, name) used by rules.py
sort_rules, as Python sorted compares them: lexicographically on the tuple,
with code-point comparison on the names.  ruleLe r s states that the key of r
is less than or equal to the key of s. -/
def ruleLe (r s : Rule) : Bool :=
  if -r.priority < -s.priority then true
  else if -r.priority = -s.priority then ! strLt s.name r.name
  else false

/-- ruleLe as a relation, for the sortedness lemmas. -/
def RuleLe : Rule → Rule → Prop := fun r s => ruleLe r s = true

instance : DecidableRel RuleLe :=
  fun r s => inferInstanceAs (Decidable (ruleLe r s = true))

/-- rules.py sort_rules: deterministic ordering, higher priority first, then
lexicographic ascending by name.  Python sorted is a stable sort, and
insertion sort with a non-strict total order is stable, so it computes the
same list as the source. -/
def sort_rules (rules : List Rule) : List Rule := rules.insertionSort RuleLe

/-- engine.py ReasoningStep: one application of a rule in a run. -/
structure ReasoningStep where
  rule_name : String
  new_facts : Finset String
  iteration_index : Nat
  rule_description : Option String
  rule_citation : Option String
deriving DecidableEq

/-- engine.py ReasoningResult.  The contradictions list is produced by
iterating a Python set whose order is unspecified, so it is modelled as the
finite set of reported pairs. -/
structure ReasoningResult where
  final_facts : FactSet
  steps : List ReasoningStep
  contradictions : Finset (String × String)
deriving DecidableEq

/-- The value frozenset((a, b)) stored by add_contradiction_pair is
represented by the ordered pair of its elements in ascending string order;
the singleton frozenset arising when a = b is represented by (a, a).  The
representation is a bijection from frozensets of one or two strings to these
normalized pairs, so the set-of-frozensets semantics is preserved exactly. -/
def normPair (a b : String) : String × String := if strLt b a then (b, a) else (a, b)

/-- engine.py ReasoningEngine: the rule list sorted at construction, and the
registered contradiction pairs. -/
structure ReasoningEngine where
  rules : List Rule
  contradictions : Finset (String × String)
deriving DecidableEq

/-- engine.py ReasoningEngine.add_contradiction_pair: store frozenset((a, b))
into the registry set. -/
def ReasoningEngine.add_contradiction_pair (e : ReasoningEngine) (a b : String) :
    ReasoningEngine :=
  { e with contradictions := insert (normPair a b) e.contradictions }

/-- engine.py ReasoningEngine.__init__: sort the rules once, then register
every supplied contradiction pair in order. -/
def ReasoningEngine.init (rules : List Rule) (pairs : List (String × String)) :
    ReasoningEngine :=
  pairs.foldl (fun e p => e.add_contradiction_pair p.1 p.2)
    { rules := sort_rules rules, contradictions := ∅ }

/-- The for-loop over the rules inside the while body of engine.py run
(lines 85 to 103): each applicable rule with some missing conclusion merges
its new facts into the working facts and appends a ReasoningStep; the third
component records the changed flag, set exactly when some rule fired. -/
def runPass (rules : List Rule) (facts : FactSet) (iteration : Nat) :
    FactSet × List ReasoningStep × Bool :=
  match rules with
  | [] => (facts, [], false)
  | r :: rs =>
    if r.is_applicable facts then
      if r.new_facts_if_applied facts = ∅ then runPass rs facts iteration
      else
        let rest := runPass rs (facts ∪ r.new_facts_if_applied facts) iteration
        (rest.1,
         ⟨r.name, r.new_facts_if_applied facts, iteration, r.description, r.citation⟩
           :: rest.2.1,
         true)
    else runPass rs facts iteration

/-- The while loop of engine.py run: fuel is the number of remaining
iterations, max_iterations minus the current value of the iteration counter;
the loop body runs while the changed flag holds and fuel remains. -/
def runLoop (rules : List Rule) (facts : FactSet) (iteration : Nat) (fuel : Nat) :
    FactSet × List ReasoningStep :=
  match fuel with
  | 0 => (facts, [])
  | Nat.succ fuel =>
    let pass := runPass rules facts (iteration + 1)
    if pass.2.2 then
      let rest := runLoop rules pass.1 (iteration + 1) fuel
      (rest.1, pass.2.1 ++ rest.2)
    else (pass.1, pass.2.1)

/-- engine.py ReasoningEngine._find_contradictions: every stored pair whose
members are both present in the facts is reported as its sorted 2-tuple.  The
destructuring a, b = sorted(pair) raises ValueError when the stored frozenset
has a single element, that is, when the normalized pair has equal components;
that escape is modelled by the none result. -/
def findContradictions (registry : Finset (String × String)) (present : FactSet) :
    Option (Finset (String × String)) :=
  let hits := registry.filter (fun p => p.1 ∈ present ∧ p.2 ∈ present)
  if ∀ p ∈ hits, p.1 ≠ p.2 then some hits else none

/-- engine.py ReasoningEngine.run: copy the initial facts, iterate rule
passes until no change or until the iteration cap, then scan the registry
against the final facts.  The none result models the ValueError escape from
the contradiction scan; there is no other failure. -/
def ReasoningEngine.run (e : ReasoningEngine) (initial_facts : FactSet)
    (max_iterations : Nat) : Option ReasoningResult :=
  let out := runLoop e.rules initial_facts 0 max_iterations
  (findContradictions e.contradictions out.1).map
    (fun c => { final_facts := out.1, steps := out.2, contradictions := c })

/-- The default value of the max_iterations parameter of run. -/
def default_max_iterations : Nat := 1000

/-- The union of the new_facts fields of a list of steps. -/
def stepsUnion (steps : List ReasoningStep) : Finset String :=
  steps.foldr (fun s acc => s.new_facts ∪ acc) ∅

/-- All conclusion facts across a rule library (the conclusion vocabulary). -/
def concVocab (rules : List Rule) : Finset String :=
  rules.foldr (fun r acc => r.conclusions ∪ acc) ∅

/-- A fact set is converged for a rule library when a full pass over the
rules adds nothing, that is, the changed flag of the pass is false. -/
def Converged (rules : List Rule) (facts : FactSet) : Prop :=
  (runPass rules facts 0).2.2 = false

instance (rules : List Rule) (facts : FactSet) : Decidable (Converged rules facts) :=
  inferInstanceAs (Decidable ((runPass rules facts 0).2.2 = false))

/- Explicit-store model of the FactSet objects alive during a call of run,
   used to state what Python mutation does.  A store is the list of the
   contents of the allocated FactSet objects, and a FactSet variable is an
   index into the store. -/

/-- Contents of the FactSet cell at index i of the store. -/
def storeGet (σ : List FactSet) (i : Nat) : FactSet := σ.getD i ∅

/-- facts.py FactSet.copy at the store level: allocate a fresh cell holding
the same facts; the fresh index is the previous store length. -/
def storeCopy (σ : List FactSet) (i : Nat) : List FactSet × Nat :=
  (σ ++ [storeGet σ i], σ.length)

/-- facts.py FactSet.update at the store level: merge new facts into the
cell at index w, in place. -/
def storeUpdate (σ : List FactSet) (w : Nat) (nf : Finset String) : List FactSet :=
  σ.set w (storeGet σ w ∪ nf)

/-- The rule for-loop of engine.py run, acting on the working FactSet cell
at index w by mutation. -/
def runPassStore (rules : List Rule) (σ : List FactSet) (w : Nat) (iteration : Nat) :
    List FactSet × List ReasoningStep × Bool :=
  match rules with
  | [] => (σ, [], false)
  | r :: rs =>
    if r.is_applicable (storeGet σ w) then
      if r.new_facts_if_applied (storeGet σ w) = ∅ then runPassStore rs σ w iteration
      else
        let rest := runPassStore rs (storeUpdate σ w (r.new_facts_if_applied (storeGet σ w))) w iteration
        (rest.1,
         ⟨r.name, r.new_facts_if_applied (storeGet σ w), iteration, r.description, r.citation⟩
           :: rest.2.1,
         true)
    else runPassStore rs σ w iteration

/-- The while loop of engine.py run at the store level. -/
def runLoopStore (rules : List Rule) (σ : List FactSet) (w : Nat) (iteration : Nat)
    (fuel : Nat) : List FactSet × List ReasoningStep :=
  match fuel with
  | 0 => (σ, [])
  | Nat.succ fuel =>
    let pass := runPassStore rules σ w (iteration + 1)
    if pass.2.2 then
      let rest := runLoopStore rules pass.1 w (iteration + 1) fuel
      (rest.1, pass.2.1 ++ rest.2)
    else (pass.1, pass.2.1)

/-- engine.py run at the store level: facts = initial_facts.copy() allocates
the working cell, and the loop then mutates only that cell.  Returns the
final store, the index of the working cell, and the trace. -/
def runStore (rules : List Rule) (σ : List FactSet) (i : Nat) (fuel : Nat) :
    List FactSet × Nat × List ReasoningStep :=
  let c := storeCopy σ i
  let out := runLoopStore rules c.1 c.2 0 fuel
  (out.1, c.2, out.2)

/- The vocab module (src/bioreasoner/vocab.py) is imported by rules.py but is
   not among the provided sources; only its users are.  The fact token values
   below are modelled from the spec: fact tokens are opaque strings of the
   shape ENTITY__ATTRIBUTE__VALUE, as in the spec examples and in the token
   lists of llm_prompts.py and llm_parser.py. -/

/-- Modelled from the spec: vocab fact token (vocab.py is missing from src). -/
def WNT_LIGAND_PRESENT : String := "WNT__LIGAND__PRESENT"

/-- Modelled from the spec: vocab fact token. -/
def LRP6_PROTEIN_PRESENT : String := "LRP6__PROTEIN__PRESENT"

/-- Modelled from the spec: vocab fact token. -/
def FRIZZLED_PROTEIN_PRESENT : String := "FRIZZLED__PROTEIN__PRESENT"

/-- Modelled from the spec: vocab fact token. -/
def SIGNALOSOME_STATE_FORMED : String := "SIGNALOSOME__STATE__FORMED"

/-- Modelled from the spec: vocab fact token. -/
def LRP6_SER_SITES_INTACT : String := "LRP6__SER_SITES__INTACT"

/-- Modelled from the spec: vocab fact token. -/
def LRP6_SER_SITES_P : String := "LRP6__SER_SITES__P"

/-- Modelled from the spec: vocab fact token. -/
def LRP6_SIGNALING_ACTIVE : String := "LRP6__SIGNALING__ACTIVE"

/-- Modelled from the spec: vocab fact token. -/
def DESTRUCTION_COMPLEX_ACTIVITY_LOW : String := "DESTRUCTION_COMPLEX__ACTIVITY__LOW"

/-- Modelled from the spec: vocab fact token. -/
def DESTRUCTION_COMPLEX_ACTIVITY_HIGH : String := "DESTRUCTION_COMPLEX__ACTIVITY__HIGH"

/-- Modelled from the spec: vocab fact token. -/
def BETA_CAT_LEVEL_UP : String := "BETA_CAT__LEVEL__UP"

/-- Modelled from the spec: vocab fact token. -/
def BETA_CAT_LEVEL_DOWN : String := "BETA_CAT__LEVEL__DOWN"

/-- Modelled from the spec: vocab fact token. -/
def BETA_CAT_LEVEL_BASELINE : String := "BETA_CAT__LEVEL__BASELINE"

/-- Modelled from the spec: vocab fact token. -/
def WNT_STATE_OFF : String := "WNT__STATE__OFF"

/-- Modelled from the spec: vocab fact token. -/
def GROWTH_FACTOR_LIGAND_PRESENT : String := "GROWTH_FACTOR__LIGAND__PRESENT"

/-- Modelled from the spec: vocab fact token. -/
def RTK_RECEPTOR_PRESENT : String := "RTK__RECEPTOR__PRESENT"

/-- Modelled from the spec: vocab fact token. -/
def PI3K_STATE_ACTIVE : String := "PI3K__STATE__ACTIVE"

/-- Modelled from the spec: vocab fact token. -/
def AKT_PHOSPHO_THR308_P : String := "AKT__PHOSPHO_THR308__P"

/-- Modelled from the spec: vocab fact token. -/
def AKT_PHOSPHO_SER473_P : String := "AKT__PHOSPHO_SER473__P"

/-- Modelled from the spec: vocab fact token. -/
def AKT_STATE_ACTIVE : String := "AKT__STATE__ACTIVE"

/-- Modelled from the spec: vocab fact token. -/
def AKT_STATE_INACTIVE : String := "AKT__STATE__INACTIVE"

/-- Modelled from the spec: vocab fact token. -/
def GSK3_STATE_INACTIVE : String := "GSK3__STATE__INACTIVE"

/-- Modelled from the spec: vocab fact token. -/
def GSK3_STATE_ACTIVE : String := "GSK3__STATE__ACTIVE"

/-- Modelled from the spec: vocab fact token. -/
def APOPTOSIS_TENDENCY_LOW : String := "APOPTOSIS__TENDENCY__LOW"

/-- Modelled from the spec: vocab fact token. -/
def APOPTOSIS_TENDENCY_HIGH : String := "APOPTOSIS__TENDENCY__HIGH"

/-- Modelled from the spec: vocab fact token. -/
def GROWTH_FACTOR_STATE_OFF : String := "GROWTH_FACTOR__STATE__OFF"

/-- rules.py build_default_wnt_rules: the fixed catalog of the fourteen
domain rules, sorted by sort_rules on return. -/
def build_default_wnt_rules : List Rule := sort_rules [
  ⟨"wnt_frizzled_lrp6_form_signalosome",
    {WNT_LIGAND_PRESENT, LRP6_PROTEIN_PRESENT, FRIZZLED_PROTEIN_PRESENT},
    {SIGNALOSOME_STATE_FORMED}, 15, {"WNT", "LRP6", "FRIZZLED"},
    some ("When Wnt ligand, LRP6, and Frizzled are present, a Wnt signalosome forms."), none⟩,
  ⟨"signalosome_drives_lrp6_ser_phosphorylation",
    {SIGNALOSOME_STATE_FORMED, LRP6_SER_SITES_INTACT},
    {LRP6_SER_SITES_P}, 10, {"WNT", "LRP6"},
    some ("A formed Wnt signalosome phosphorylates intact LRP6 serine sites."), none⟩,
  ⟨"signalosome_lowers_destruction_complex_activity",
    {SIGNALOSOME_STATE_FORMED},
    {DESTRUCTION_COMPLEX_ACTIVITY_LOW}, 9, {"WNT", "DESTRUCTION_COMPLEX"},
    some ("Wnt signalosome formation decreases destruction complex activity."), none⟩,
  ⟨"lrp6_active_when_p_s",
    {LRP6_SER_SITES_P},
    {LRP6_SIGNALING_ACTIVE}, 5, {"LRP6"},
    some ("Serine-phosphorylated LRP6 is treated as an active Wnt co-receptor."), none⟩,
  ⟨"lrp6_active_drives_beta_cat_up",
    {LRP6_SIGNALING_ACTIVE},
    {BETA_CAT_LEVEL_UP}, 1, {"BETA_CAT"},
    some ("Active LRP6 signaling increases beta-catenin levels."), none⟩,
  ⟨"destruction_complex_high_drives_beta_cat_down",
    {DESTRUCTION_COMPLEX_ACTIVITY_HIGH},
    {BETA_CAT_LEVEL_DOWN}, 2, {"BETA_CAT", "DESTRUCTION_COMPLEX"},
    some ("High destruction complex activity lowers beta-catenin levels."), none⟩,
  ⟨"baseline_destruction_complex_high_when_no_wnt",
    {LRP6_PROTEIN_PRESENT, FRIZZLED_PROTEIN_PRESENT, WNT_STATE_OFF},
    {DESTRUCTION_COMPLEX_ACTIVITY_HIGH}, -1, {"DESTRUCTION_COMPLEX"},
    some ("In the absence of Wnt, with receptors present, the destruction complex is highly active."), none⟩,
  ⟨"gf_rtk_activate_pi3k",
    {GROWTH_FACTOR_LIGAND_PRESENT, RTK_RECEPTOR_PRESENT},
    {PI3K_STATE_ACTIVE}, 15, {"PI3K", "RTK", "GROWTH_FACTOR"},
    some ("When a growth factor ligand and its RTK receptor are present, PI3K becomes active."), none⟩,
  ⟨"pi3k_active_phosphorylates_akt",
    {PI3K_STATE_ACTIVE},
    {AKT_PHOSPHO_THR308_P, AKT_PHOSPHO_SER473_P}, 10, {"PI3K", "AKT"},
    some ("Active PI3K signaling leads to AKT phosphorylation at Thr308 and Ser473."), none⟩,
  ⟨"dual_phospho_akt_is_active",
    {AKT_PHOSPHO_THR308_P, AKT_PHOSPHO_SER473_P},
    {AKT_STATE_ACTIVE}, 5, {"AKT"},
    some ("AKT is considered active when both Thr308 and Ser473 sites are phosphorylated."), none⟩,
  ⟨"akt_active_inhibits_gsk3",
    {AKT_STATE_ACTIVE},
    {GSK3_STATE_INACTIVE}, 2, {"AKT", "GSK3"},
    some ("Active AKT inhibits GSK3, rendering it inactive."), none⟩,
  ⟨"akt_active_reduces_apoptosis_tendency",
    {AKT_STATE_ACTIVE},
    {APOPTOSIS_TENDENCY_LOW}, 1, {"AKT", "APOPTOSIS"},
    some ("Active AKT signaling reduces apoptotic tendency (pro-survival effect)."), none⟩,
  ⟨"baseline_no_gf_leads_to_high_apoptosis",
    {RTK_RECEPTOR_PRESENT, GROWTH_FACTOR_STATE_OFF},
    {AKT_STATE_INACTIVE, GSK3_STATE_ACTIVE, APOPTOSIS_TENDENCY_HIGH}, -1,
    {"RTK", "AKT", "GSK3", "APOPTOSIS"},
    some ("Without growth factor, RTK is present but PI3K/AKT remain inactive, GSK3 is active, and apoptotic tendency is high."), none⟩,
  ⟨"gsk3_inactive_lowers_destruction_complex_activity",
    {GSK3_STATE_INACTIVE},
    {DESTRUCTION_COMPLEX_ACTIVITY_LOW}, 3, {"GSK3", "DESTRUCTION_COMPLEX", "CROSSTALK"},
    some ("When GSK3 is inactive (e.g., via AKT), destruction complex activity is inferred to be low."), none⟩]

/-- The engine of the Wnt-activation scenario of the spec and of
tests/test_engine_basic.py: the default rule library with the contradiction
pair of the baseline and raised beta-catenin levels registered. -/
def wntEngine : ReasoningEngine :=
  ReasoningEngine.init build_default_wnt_rules
    [(BETA_CAT_LEVEL_BASELINE, BETA_CAT_LEVEL_UP)]

/-- The initial facts of the Wnt-activation scenario. -/
def wntInitial : FactSet :=
  {WNT_LIGAND_PRESENT, LRP6_PROTEIN_PRESENT, FRIZZLED_PROTEIN_PRESENT,
   LRP6_SER_SITES_INTACT, BETA_CAT_LEVEL_BASELINE}

/- Order lemmas for the code-point comparison. -/

lemma charsLt_irrefl : ∀ l : List Char, charsLt l l = false
  | [] => rfl
  | a :: as => by simp [charsLt, charsLt_irrefl as]

lemma charsLt_nil_right : ∀ l : List Char, charsLt l [] = false
  | [] => rfl
  | _ :: _ => rfl

lemma charsLt_connex : ∀ {l₁ l₂ : List Char},
    charsLt l₁ l₂ = false → charsLt l₂ l₁ = false → l₁ = l₂
  | [], [], _, _ => rfl
  | [], _ :: _, h₁, _ => by simp [charsLt] at h₁
  | _ :: _, [], _, h₂ => by simp [charsLt] at h₂
  | a :: as, b :: bs, h₁, h₂ => by
      simp only [charsLt, Bool.or_eq_false_iff, Bool.and_eq_false_iff,
        decide_eq_false_iff_not] at h₁ h₂
      have hab : a = b := le_antisymm (not_lt.mp h₂.1) (not_lt.mp h₁.1)
      subst hab
      rcases h₁.2 with h | h
      · exact absurd rfl h
      · rcases h₂.2 with h' | h'
        · exact absurd rfl h'
        · rw [charsLt_connex h h']

lemma charsLt_asymm : ∀ {l₁ l₂ : List Char},
    charsLt l₁ l₂ = true → charsLt l₂ l₁ = false
  | [], [], h => by simp [charsLt] at h
  | [], _ :: _, _ => rfl
  | _ :: _, [], h => by simp [charsLt] at h
  | a :: as, b :: bs, h => by
      simp only [charsLt, Bool.or_eq_true, Bool.and_eq_true,
        decide_eq_true_eq] at h
      simp only [charsLt, Bool.or_eq_false_iff, Bool.and_eq_false_iff,
        decide_eq_false_iff_not]
      rcases h with h | ⟨hab, h⟩
      · exact ⟨not_lt.mpr (le_of_lt h), Or.inl (ne_of_gt h)⟩
      · subst hab
        exact ⟨lt_irrefl a, Or.inr (charsLt_asymm h)⟩

lemma charsLt_trans : ∀ {l₁ l₂ l₃ : List Char},
    charsLt l₁ l₂ = true → charsLt l₂ l₃ = true → charsLt l₁ l₃ = true
  | _, l₂, [], _, h₂ => by rw [charsLt_nil_right l₂] at h₂; cases h₂
  | [], _, _ :: _, _, _ => rfl
  | _ :: _, [], _, h₁, _ => by simp [charsLt] at h₁
  | a :: as, b :: bs, c :: cs, h₁, h₂ => by
      simp only [charsLt, Bool.or_eq_true, Bool.and_eq_true,
        decide_eq_true_eq] at h₁ h₂ ⊢
      rcases h₁ with h₁ | ⟨hab, h₁⟩
      · rcases h₂ with h₂ | ⟨hbc, h₂⟩
        · exact Or.inl (lt_trans h₁ h₂)
        · exact Or.inl (hbc ▸ h₁)
      · rcases h₂ with h₂ | ⟨hbc, h₂⟩
        · exact Or.inl (hab ▸ h₂)
        · exact Or.inr ⟨hab.trans hbc, charsLt_trans h₁ h₂⟩

lemma strLt_asymm {a b : String} (h : strLt a b = true) : strLt b a = false :=
  charsLt_asymm h

lemma strLt_connex {a b : String} (h₁ : strLt a b = false) (h₂ : strLt b a = false) :
    a = b := by
  cases a; cases b
  exact congrArg String.mk (charsLt_connex h₁ h₂)

lemma strLt_trans {a b c : String} (h₁ : strLt a b = true) (h₂ : strLt b c = true) :
    strLt a c = true :=
  charsLt_trans h₁ h₂

lemma strLt_irrefl (a : String) : strLt a a = false := charsLt_irrefl a.data

/- Order lemmas for the rule sort key. -/

lemma ruleLe_iff {r s : Rule} : ruleLe r s = true ↔
    (-r.priority < -s.priority ∨
      (-r.priority = -s.priority ∧ strLt s.name r.name = false)) := by
  unfold ruleLe
  split
  · simp_all
  · split
    · simp_all [Bool.not_eq_true']
    · simp_all

lemma ruleLe_total (r s : Rule) : ruleLe r s = true ∨ ruleLe s r = true := by
  rcases lt_trichotomy (-r.priority) (-s.priority) with h | h | h
  · exact Or.inl (ruleLe_iff.mpr (Or.inl h))
  · cases hn : strLt s.name r.name with
    | false => exact Or.inl (ruleLe_iff.mpr (Or.inr ⟨h, hn⟩))
    | true => exact Or.inr (ruleLe_iff.mpr (Or.inr ⟨h.symm, strLt_asymm hn⟩))
  · exact Or.inr (ruleLe_iff.mpr (Or.inl h))

lemma ruleLe_trans {r s t : Rule} (h₁ : ruleLe r s = true) (h₂ : ruleLe s t = true) :
    ruleLe r t = true := by
  rcases ruleLe_iff.mp h₁ with hp₁ | ⟨hp₁, hn₁⟩ <;>
    rcases ruleLe_iff.mp h₂ with hp₂ | ⟨hp₂, hn₂⟩
  · exact ruleLe_iff.mpr (Or.inl (lt_trans hp₁ hp₂))
  · exact ruleLe_iff.mpr (Or.inl (hp₂ ▸ hp₁))
  · exact ruleLe_iff.mpr (Or.inl (hp₁ ▸ hp₂))
  · refine ruleLe_iff.mpr (Or.inr ⟨hp₁.trans hp₂, ?_⟩)
    by_contra hcon
    have hn : strLt t.name r.name = true := by
      cases h : strLt t.name r.name
      · exact absurd h hcon
      · rfl
    cases hst : strLt s.name t.name with
    | false =>
      have heq : s.name = t.name := strLt_connex hst hn₂
      rw [heq] at hn₁
      rw [hn₁] at hn
      simp at hn
    | true =>
      have hsr := strLt_trans hst hn
      rw [hsr] at hn₁
      simp at hn₁

lemma ruleLe_antisymm_key {r s : Rule} (h₁ : ruleLe r s = true)
    (h₂ : ruleLe s r = true) : r.priority = s.priority ∧ r.name = s.name := by
  rcases ruleLe_iff.mp h₁ with hp₁ | ⟨hp₁, hn₁⟩ <;>
    rcases ruleLe_iff.mp h₂ with hp₂ | ⟨hp₂, hn₂⟩
  · exact absurd (lt_trans hp₁ hp₂) (lt_irrefl _)
  · rw [hp₂] at hp₁
    exact absurd hp₁ (lt_irrefl _)
  · rw [hp₁] at hp₂
    exact absurd hp₂ (lt_irrefl _)
  · exact ⟨neg_injective hp₁, (strLt_connex hn₁ hn₂).symm⟩

instance : IsTotal Rule RuleLe := ⟨ruleLe_total⟩

instance : IsTrans Rule RuleLe := ⟨fun _ _ _ => ruleLe_trans⟩

/- sort_rules produces a sorted permutation of its input, and is determined
   by the input multiset whenever the sort key is injective on the members. -/

lemma sort_rules_sorted (l : List Rule) : (sort_rules l).Sorted RuleLe :=
  List.sorted_insertionSort RuleLe l

lemma sort_rules_perm (l : List Rule) : (sort_rules l).Perm l :=
  List.perm_insertionSort RuleLe l

lemma sorted_perm_unique : ∀ {l₁ l₂ : List Rule}, l₁.Perm l₂ →
    l₁.Sorted RuleLe → l₂.Sorted RuleLe →
    (∀ r ∈ l₁, ∀ s ∈ l₁, RuleLe r s → RuleLe s r → r = s) → l₁ = l₂
  | [], _, hp, _, _, _ => hp.nil_eq
  | _ :: _, [], hp, _, _, _ => absurd hp.length_eq (by simp)
  | a :: t₁, b :: t₂, hp, hs₁, hs₂, hanti => by
    have hmem_b : b ∈ a :: t₁ := hp.mem_iff.mpr (List.mem_cons_self b t₂)
    have hmem_a : a ∈ b :: t₂ := hp.mem_iff.mp (List.mem_cons_self a t₁)
    have hab : a = b := by
      rcases List.mem_cons.mp hmem_b with h | hbt₁
      · exact h.symm
      · rcases List.mem_cons.mp hmem_a with h' | hat₂
        · exact h'
        · exact hanti a (List.mem_cons_self a t₁) b hmem_b
            (List.rel_of_sorted_cons hs₁ b hbt₁)
            (List.rel_of_sorted_cons hs₂ a hat₂)
    subst hab
    have htt : t₁ = t₂ :=
      sorted_perm_unique hp.cons_inv hs₁.of_cons hs₂.of_cons
        (fun r hr s hs =>
          hanti r (List.mem_cons_of_mem a hr) s (List.mem_cons_of_mem a hs))
    rw [htt]

/- Lemmas about the normalized-pair representation of frozenset((a, b)). -/

lemma normPair_comm (a b : String) : normPair a b = normPair b a := by
  unfold normPair
  cases hba : strLt b a with
  | true =>
    rw [strLt_asymm hba]
    simp
  | false =>
    cases hab : strLt a b with
    | true => simp
    | false =>
      have h : a = b := strLt_connex hab hba
      subst h
      simp

lemma normPair_norm (a b : String) : strLt (normPair a b).2 (normPair a b).1 = false := by
  unfold normPair
  rcases hba : strLt b a with _ | _ <;> simp
  · exact hba
  · exact strLt_asymm hba

lemma normPair_fst_eq_snd_iff (a b : String) :
    (normPair a b).1 = (normPair a b).2 ↔ a = b := by
  unfold normPair
  rcases strLt b a with _ | _ <;> simp [eq_comm]

lemma normPair_self (a : String) : normPair a a = (a, a) := by
  unfold normPair
  rw [strLt_irrefl a]
  rfl

/- Characterization of the engine constructor. -/

lemma foldl_add_pair_rules (pairs : List (String × String)) :
    ∀ e : ReasoningEngine,
      (pairs.foldl (fun e p => e.add_contradiction_pair p.1 p.2) e).rules = e.rules := by
  induction pairs with
  | nil => intro e; rfl
  | cons p ps ih => intro e; rw [List.foldl_cons, ih]; rfl

lemma foldl_add_pair_mem (pairs : List (String × String)) :
    ∀ (e : ReasoningEngine) (x : String × String),
      x ∈ (pairs.foldl (fun e p => e.add_contradiction_pair p.1 p.2) e).contradictions ↔
        x ∈ e.contradictions ∨ ∃ ab ∈ pairs, normPair ab.1 ab.2 = x := by
  induction pairs with
  | nil => intro e x; simp
  | cons p ps ih =>
    intro e x
    rw [List.foldl_cons, ih]
    simp only [ReasoningEngine.add_contradiction_pair, Finset.mem_insert, List.mem_cons]
    constructor
    · rintro (⟨h | h⟩ | ⟨ab, hab, h⟩)
      · exact Or.inr ⟨p, Or.inl rfl, h.symm⟩
      · exact Or.inl h
      · exact Or.inr ⟨ab, Or.inr hab, h⟩
    · rintro (h | ⟨ab, hab | hab, h⟩)
      · exact Or.inl (Or.inr h)
      · exact Or.inl (Or.inl (hab ▸ h.symm))
      · exact Or.inr ⟨ab, hab, h⟩

lemma init_rules (rules : List Rule) (pairs : List (String × String)) :
    (ReasoningEngine.init rules pairs).rules = sort_rules rules :=
  foldl_add_pair_rules pairs _

lemma init_contr_mem (rules : List Rule) (pairs : List (String × String))
    (x : String × String) :
    x ∈ (ReasoningEngine.init rules pairs).contradictions ↔
      ∃ ab ∈ pairs, normPair ab.1 ab.2 = x := by
  rw [ReasoningEngine.init, foldl_add_pair_mem]
  simp

lemma init_contr_norm (rules : List Rule) (pairs : List (String × String)) :
    ∀ x ∈ (ReasoningEngine.init rules pairs).contradictions,
      strLt x.2 x.1 = false := by
  intro x hx
  rcases (init_contr_mem rules pairs x).mp hx with ⟨ab, _, h⟩
  rw [← h]
  exact normPair_norm ab.1 ab.2

lemma init_contr_ne (rules : List Rule) (pairs : List (String × String))
    (hp : ∀ a b, (a, b) ∈ pairs → a ≠ b) :
    ∀ x ∈ (ReasoningEngine.init rules pairs).contradictions, x.1 ≠ x.2 := by
  intro x hx
  rcases (init_contr_mem rules pairs x).mp hx with ⟨ab, hab, h⟩
  rw [← h]
  intro hcon
  exact hp ab.1 ab.2 hab ((normPair_fst_eq_snd_iff ab.1 ab.2).mp hcon)

/- Lemmas about the contradiction scan. -/

lemma findContradictions_some (registry : Finset (String × String)) (present : FactSet)
    (hne : ∀ p ∈ registry.filter (fun p => p.1 ∈ present ∧ p.2 ∈ present), p.1 ≠ p.2) :
    findContradictions registry present =
      some (registry.filter (fun p => p.1 ∈ present ∧ p.2 ∈ present)) := by
  unfold findContradictions
  rw [if_pos hne]

lemma findContradictions_none (registry : Finset (String × String)) (present : FactSet)
    (a : String) (ha : (a, a) ∈ registry) (hpres : a ∈ present) :
    findContradictions registry present = none := by
  unfold findContradictions
  rw [if_neg]
  intro hall
  exact hall (a, a) (Finset.mem_filter.mpr ⟨ha, hpres, hpres⟩) rfl

lemma findContradictions_eq_some (registry : Finset (String × String)) (present : FactSet)
    (c : Finset (String × String)) (h : findContradictions registry present = some c) :
    c = registry.filter (fun p => p.1 ∈ present ∧ p.2 ∈ present) ∧
      ∀ p ∈ c, p.1 ≠ p.2 := by
  by_cases hall : ∀ p ∈ registry.filter (fun p => p.1 ∈ present ∧ p.2 ∈ present),
      p.1 ≠ p.2
  · rw [findContradictions_some registry present hall] at h
    have hc := Option.some.inj h
    refine ⟨hc.symm, ?_⟩
    rw [← hc]
    exact hall
  · unfold findContradictions at h
    rw [if_neg hall] at h
    cases h

/- Helpers for step unions and the conclusion vocabulary. -/

lemma mem_stepsUnion {x : String} : ∀ {steps : List ReasoningStep},
    x ∈ stepsUnion steps ↔ ∃ s ∈ steps, x ∈ s.new_facts
  | [] => by simp [stepsUnion]
  | s :: rest => by
      rw [show stepsUnion (s :: rest) = s.new_facts ∪ stepsUnion rest from rfl,
        Finset.mem_union, @mem_stepsUnion x rest]
      simp

lemma stepsUnion_append (l₁ l₂ : List ReasoningStep) :
    stepsUnion (l₁ ++ l₂) = stepsUnion l₁ ∪ stepsUnion l₂ := by
  ext x
  simp [mem_stepsUnion]
  constructor
  · rintro ⟨s, h | h, hx⟩
    · exact Or.inl ⟨s, h, hx⟩
    · exact Or.inr ⟨s, h, hx⟩
  · rintro (⟨s, h, hx⟩ | ⟨s, h, hx⟩)
    · exact ⟨s, Or.inl h, hx⟩
    · exact ⟨s, Or.inr h, hx⟩

lemma mem_concVocab {x : String} : ∀ {rules : List Rule},
    x ∈ concVocab rules ↔ ∃ r ∈ rules, x ∈ r.conclusions
  | [] => by simp [concVocab]
  | r :: rest => by
      rw [show concVocab (r :: rest) = r.conclusions ∪ concVocab rest from rfl,
        Finset.mem_union, @mem_concVocab x rest]
      simp

lemma concVocab_perm {l₁ l₂ : List Rule} (h : l₁.Perm l₂) :
    concVocab l₁ = concVocab l₂ := by
  ext x
  simp only [mem_concVocab]
  constructor
  · rintro ⟨r, hr, hx⟩
    exact ⟨r, h.mem_iff.mp hr, hx⟩
  · rintro ⟨r, hr, hx⟩
    exact ⟨r, h.mem_iff.mpr hr, hx⟩

/- Unfolding lemmas for one rule pass. -/

lemma runPass_nil (facts : FactSet) (i : Nat) : runPass [] facts i = (facts, [], false) :=
  rfl

lemma runPass_cons_skip {r : Rule} {facts : FactSet} (rs : List Rule) (i : Nat)
    (h : r.is_applicable facts = false) :
    runPass (r :: rs) facts i = runPass rs facts i := by
  simp only [runPass, h]
  simp

lemma runPass_cons_empty {r : Rule} {facts : FactSet} (rs : List Rule) (i : Nat)
    (h₁ : r.is_applicable facts = true) (h₂ : r.new_facts_if_applied facts = ∅) :
    runPass (r :: rs) facts i = runPass rs facts i := by
  simp only [runPass, h₁, h₂]
  simp

lemma runPass_cons_fire {r : Rule} {facts : FactSet} (rs : List Rule) (i : Nat)
    (h₁ : r.is_applicable facts = true) (h₂ : r.new_facts_if_applied facts ≠ ∅) :
    runPass (r :: rs) facts i =
      ((runPass rs (facts ∪ r.new_facts_if_applied facts) i).1,
       ⟨r.name, r.new_facts_if_applied facts, i, r.description, r.citation⟩
         :: (runPass rs (facts ∪ r.new_facts_if_applied facts) i).2.1,
       true) := by
  simp only [runPass, h₁, h₂]
  simp

/- Structural facts about one pass. -/

lemma runPass_subset : ∀ (rules : List Rule) (facts : FactSet) (i : Nat),
    facts ⊆ (runPass rules facts i).1
  | [], facts, i => by rw [runPass_nil]
  | r :: rs, facts, i => by
      cases happ : r.is_applicable facts with
      | false =>
        rw [runPass_cons_skip rs i happ]
        exact runPass_subset rs facts i
      | true =>
        by_cases hnf : r.new_facts_if_applied facts = ∅
        · rw [runPass_cons_empty rs i happ hnf]
          exact runPass_subset rs facts i
        · rw [runPass_cons_fire rs i happ hnf]
          exact Finset.subset_union_left.trans
            (runPass_subset rs (facts ∪ r.new_facts_if_applied facts) i)

lemma runPass_facts_eq : ∀ (rules : List Rule) (facts : FactSet) (i : Nat),
    (runPass rules facts i).1 = facts ∪ stepsUnion (runPass rules facts i).2.1
  | [], facts, i => by
      rw [runPass_nil]
      simp [stepsUnion]
  | r :: rs, facts, i => by
      cases happ : r.is_applicable facts with
      | false =>
        rw [runPass_cons_skip rs i happ]
        exact runPass_facts_eq rs facts i
      | true =>
        by_cases hnf : r.new_facts_if_applied facts = ∅
        · rw [runPass_cons_empty rs i happ hnf]
          exact runPass_facts_eq rs facts i
        · rw [runPass_cons_fire rs i happ hnf]
          have ih := runPass_facts_eq rs (facts ∪ r.new_facts_if_applied facts) i
          rw [show ∀ s l, stepsUnion (s :: l) = s.new_facts ∪ stepsUnion l
              from fun s l => rfl]
          rw [ih, Finset.union_assoc]

lemma runPass_steps_spec : ∀ (rules : List Rule) (facts : FactSet) (i : Nat),
    ∀ s ∈ (runPass rules facts i).2.1,
      s.new_facts ≠ ∅ ∧ Disjoint s.new_facts facts ∧ s.new_facts ⊆ concVocab rules
  | [], facts, i => by
      rw [runPass_nil]
      simp
  | r :: rs, facts, i => by
      have hsub : concVocab rs ⊆ concVocab (r :: rs) := by
        rw [show concVocab (r :: rs) = r.conclusions ∪ concVocab rs from rfl]
        exact Finset.subset_union_right
      cases happ : r.is_applicable facts with
      | false =>
        rw [runPass_cons_skip rs i happ]
        intro s hs
        have ih := runPass_steps_spec rs facts i s hs
        exact ⟨ih.1, ih.2.1, ih.2.2.trans hsub⟩
      | true =>
        by_cases hnf : r.new_facts_if_applied facts = ∅
        · rw [runPass_cons_empty rs i happ hnf]
          intro s hs
          have ih := runPass_steps_spec rs facts i s hs
          exact ⟨ih.1, ih.2.1, ih.2.2.trans hsub⟩
        · rw [runPass_cons_fire rs i happ hnf]
          intro s hs
          rcases List.mem_cons.mp hs with hhead | htail
          · subst hhead
            refine ⟨hnf, Finset.sdiff_disjoint, ?_⟩
            refine Finset.sdiff_subset.trans ?_
            rw [show concVocab (r :: rs) = r.conclusions ∪ concVocab rs from rfl]
            exact Finset.subset_union_left
          · have ih := runPass_steps_spec rs (facts ∪ r.new_facts_if_applied facts) i s htail
            exact ⟨ih.1,
              Finset.disjoint_of_subset_right Finset.subset_union_left ih.2.1,
              ih.2.2.trans hsub⟩

lemma runPass_steps_pairwise : ∀ (rules : List Rule) (facts : FactSet) (i : Nat),
    ((runPass rules facts i).2.1).Pairwise
      (fun s t => Disjoint s.new_facts t.new_facts)
  | [], facts, i => by
      rw [runPass_nil]
      simp
  | r :: rs, facts, i => by
      cases happ : r.is_applicable facts with
      | false =>
        rw [runPass_cons_skip rs i happ]
        exact runPass_steps_pairwise rs facts i
      | true =>
        by_cases hnf : r.new_facts_if_applied facts = ∅
        · rw [runPass_cons_empty rs i happ hnf]
          exact runPass_steps_pairwise rs facts i
        · rw [runPass_cons_fire rs i happ hnf]
          refine List.pairwise_cons.mpr ⟨?_, runPass_steps_pairwise rs _ i⟩
          intro t ht
          have hspec := runPass_steps_spec rs (facts ∪ r.new_facts_if_applied facts) i t ht
          exact (Finset.disjoint_of_subset_right Finset.subset_union_right hspec.2.1).symm

lemma runPass_changed_iff : ∀ (rules : List Rule) (facts : FactSet) (i : Nat),
    (runPass rules facts i).2.2 = true ↔ (runPass rules facts i).2.1 ≠ []
  | [], facts, i => by
      rw [runPass_nil]
      simp
  | r :: rs, facts, i => by
      cases happ : r.is_applicable facts with
      | false =>
        rw [runPass_cons_skip rs i happ]
        exact runPass_changed_iff rs facts i
      | true =>
        by_cases hnf : r.new_facts_if_applied facts = ∅
        · rw [runPass_cons_empty rs i happ hnf]
          exact runPass_changed_iff rs facts i
        · rw [runPass_cons_fire rs i happ hnf]
          simp

lemma runPass_unchanged : ∀ (rules : List Rule) (facts : FactSet) (i : Nat),
    (runPass rules facts i).2.2 = false → runPass rules facts i = (facts, [], false)
  | [], facts, i, _ => runPass_nil facts i
  | r :: rs, facts, i, h => by
      cases happ : r.is_applicable facts with
      | false =>
        rw [runPass_cons_skip rs i happ] at h ⊢
        exact runPass_unchanged rs facts i h
      | true =>
        by_cases hnf : r.new_facts_if_applied facts = ∅
        · rw [runPass_cons_empty rs i happ hnf] at h ⊢
          exact runPass_unchanged rs facts i h
        · rw [runPass_cons_fire rs i happ hnf] at h
          simp at h

lemma runPass_indep : ∀ (rules : List Rule) (facts : FactSet) (i j : Nat),
    (runPass rules facts i).1 = (runPass rules facts j).1 ∧
      (runPass rules facts i).2.2 = (runPass rules facts j).2.2
  | [], facts, i, j => by rw [runPass_nil, runPass_nil]; exact ⟨rfl, rfl⟩
  | r :: rs, facts, i, j => by
      cases happ : r.is_applicable facts with
      | false =>
        rw [runPass_cons_skip rs i happ, runPass_cons_skip rs j happ]
        exact runPass_indep rs facts i j
      | true =>
        by_cases hnf : r.new_facts_if_applied facts = ∅
        · rw [runPass_cons_empty rs i happ hnf, runPass_cons_empty rs j happ hnf]
          exact runPass_indep rs facts i j
        · rw [runPass_cons_fire rs i happ hnf, runPass_cons_fire rs j happ hnf]
          exact ⟨(runPass_indep rs _ i j).1, rfl⟩

lemma runPass_vocab (rules : List Rule) (facts : FactSet) (i : Nat) :
    (runPass rules facts i).1 ⊆ facts ∪ concVocab rules := by
  rw [runPass_facts_eq]
  intro x hx
  rcases Finset.mem_union.mp hx with hx | hx
  · exact Finset.mem_union_left _ hx
  · rcases mem_stepsUnion.mp hx with ⟨s, hs, hxs⟩
    exact Finset.mem_union_right _
      ((runPass_steps_spec rules facts i s hs).2.2 hxs)

lemma runPass_measure (rules : List Rule) (facts : FactSet) (i : Nat)
    (h : (runPass rules facts i).2.2 = true) :
    ((concVocab rules) \ (runPass rules facts i).1).card <
      ((concVocab rules) \ facts).card := by
  have hsteps := (runPass_changed_iff rules facts i).mp h
  obtain ⟨s, hs⟩ : ∃ s, s ∈ (runPass rules facts i).2.1 := by
    cases hl : (runPass rules facts i).2.1 with
    | nil => exact absurd hl hsteps
    | cons s rest => exact ⟨s, hl ▸ List.mem_cons_self s rest⟩
  have hspec := runPass_steps_spec rules facts i s hs
  obtain ⟨x, hx⟩ := Finset.nonempty_iff_ne_empty.mpr hspec.1
  have hxfacts : x ∉ facts := Finset.disjoint_left.mp hspec.2.1 hx
  have hxvocab : x ∈ concVocab rules := hspec.2.2 hx
  have hxpass : x ∈ (runPass rules facts i).1 := by
    rw [runPass_facts_eq]
    exact Finset.mem_union_right _ (mem_stepsUnion.mpr ⟨s, hs, hx⟩)
  apply Finset.card_lt_card
  have hsub : (concVocab rules) \ (runPass rules facts i).1 ⊆
      (concVocab rules) \ facts :=
    Finset.sdiff_subset_sdiff (Finset.Subset.refl _) (runPass_subset rules facts i)
  refine (Finset.ssubset_iff_of_subset hsub).mpr
    ⟨x, Finset.mem_sdiff.mpr ⟨hxvocab, hxfacts⟩, fun hc => ?_⟩
  exact (Finset.mem_sdiff.mp hc).2 hxpass

/- Unfolding lemmas for the while loop. -/

lemma runLoop_zero (rules : List Rule) (facts : FactSet) (i : Nat) :
    runLoop rules facts i 0 = (facts, []) := rfl

lemma runLoop_succ_changed {rules : List Rule} {facts : FactSet} {i : Nat} (fuel : Nat)
    (h : (runPass rules facts (i + 1)).2.2 = true) :
    runLoop rules facts i (fuel + 1) =
      ((runLoop rules (runPass rules facts (i + 1)).1 (i + 1) fuel).1,
       (runPass rules facts (i + 1)).2.1 ++
         (runLoop rules (runPass rules facts (i + 1)).1 (i + 1) fuel).2) := by
  simp only [runLoop, h]
  simp

lemma runLoop_succ_unchanged {rules : List Rule} {facts : FactSet} {i : Nat} (fuel : Nat)
    (h : (runPass rules facts (i + 1)).2.2 = false) :
    runLoop rules facts i (fuel + 1) = (facts, []) := by
  have hu := runPass_unchanged rules facts (i + 1) h
  simp only [runLoop, h]
  rw [hu]
  simp

/- Structural facts about the loop. -/

lemma runLoop_subset : ∀ (fuel : Nat) (rules : List Rule) (facts : FactSet) (i : Nat),
    facts ⊆ (runLoop rules facts i fuel).1
  | 0, rules, facts, i => by rw [runLoop_zero]
  | fuel + 1, rules, facts, i => by
      cases hch : (runPass rules facts (i + 1)).2.2 with
      | false => rw [runLoop_succ_unchanged fuel hch]
      | true =>
        rw [runLoop_succ_changed fuel hch]
        exact (runPass_subset rules facts (i + 1)).trans
          (runLoop_subset fuel rules (runPass rules facts (i + 1)).1 (i + 1))

lemma runLoop_facts_eq : ∀ (fuel : Nat) (rules : List Rule) (facts : FactSet) (i : Nat),
    (runLoop rules facts i fuel).1 = facts ∪ stepsUnion (runLoop rules facts i fuel).2
  | 0, rules, facts, i => by
      rw [runLoop_zero]
      simp [stepsUnion]
  | fuel + 1, rules, facts, i => by
      cases hch : (runPass rules facts (i + 1)).2.2 with
      | false =>
        rw [runLoop_succ_unchanged fuel hch]
        simp [stepsUnion]
      | true =>
        rw [runLoop_succ_changed fuel hch, stepsUnion_append]
        rw [runLoop_facts_eq fuel rules (runPass rules facts (i + 1)).1 (i + 1),
          runPass_facts_eq rules facts (i + 1), Finset.union_assoc]

lemma runLoop_steps_spec : ∀ (fuel : Nat) (rules : List Rule) (facts : FactSet) (i : Nat),
    ∀ s ∈ (runLoop rules facts i fuel).2,
      s.new_facts ≠ ∅ ∧ Disjoint s.new_facts facts
  | 0, rules, facts, i => by
      rw [runLoop_zero]
      simp
  | fuel + 1, rules, facts, i => by
      cases hch : (runPass rules facts (i + 1)).2.2 with
      | false =>
        rw [runLoop_succ_unchanged fuel hch]
        simp
      | true =>
        rw [runLoop_succ_changed fuel hch]
        intro s hs
        rcases List.mem_append.mp hs with hp | hl
        · have hspec := runPass_steps_spec rules facts (i + 1) s hp
          exact ⟨hspec.1, hspec.2.1⟩
        · have ih := runLoop_steps_spec fuel rules (runPass rules facts (i + 1)).1 (i + 1) s hl
          exact ⟨ih.1,
            Finset.disjoint_of_subset_right (runPass_subset rules facts (i + 1)) ih.2⟩

lemma runLoop_steps_pairwise :
    ∀ (fuel : Nat) (rules : List Rule) (facts : FactSet) (i : Nat),
      ((runLoop rules facts i fuel).2).Pairwise
        (fun s t => Disjoint s.new_facts t.new_facts)
  | 0, rules, facts, i => by
      rw [runLoop_zero]
      simp
  | fuel + 1, rules, facts, i => by
      cases hch : (runPass rules facts (i + 1)).2.2 with
      | false =>
        rw [runLoop_succ_unchanged fuel hch]
        simp
      | true =>
        rw [runLoop_succ_changed fuel hch]
        refine List.pairwise_append.mpr
          ⟨runPass_steps_pairwise rules facts (i + 1),
           runLoop_steps_pairwise fuel rules (runPass rules facts (i + 1)).1 (i + 1),
           ?_⟩
        intro s hs t ht
        have hspec := runPass_steps_spec rules facts (i + 1) s hs
        have hloop := runLoop_steps_spec fuel rules (runPass rules facts (i + 1)).1 (i + 1) t ht
        have hsub : s.new_facts ⊆ (runPass rules facts (i + 1)).1 := by
          rw [runPass_facts_eq rules facts (i + 1)]
          exact (fun x hx =>
            Finset.mem_union_right _ (mem_stepsUnion.mpr ⟨s, hs, hx⟩))
        exact (Finset.disjoint_of_subset_right hsub hloop.2).symm

lemma runLoop_converged_eq (rules : List Rule) (facts : FactSet)
    (h : Converged rules facts) :
    ∀ (fuel : Nat) (i : Nat), runLoop rules facts i fuel = (facts, []) := by
  intro fuel i
  cases fuel with
  | zero => rfl
  | succ fuel =>
    have hch : (runPass rules facts (i + 1)).2.2 = false := by
      rw [(runPass_indep rules facts (i + 1) 0).2]
      exact h
    exact runLoop_succ_unchanged fuel hch

lemma runLoop_fix : ∀ (fuel : Nat) (rules : List Rule) (facts : FactSet) (i : Nat),
    ((concVocab rules) \ facts).card < fuel →
      Converged rules (runLoop rules facts i fuel).1 ∧
        ∀ fuel', fuel ≤ fuel' → runLoop rules facts i fuel' = runLoop rules facts i fuel
  | 0, rules, facts, i, h => absurd h (Nat.not_lt_zero _)
  | fuel + 1, rules, facts, i, h => by
      cases hch : (runPass rules facts (i + 1)).2.2 with
      | false =>
        rw [runLoop_succ_unchanged fuel hch]
        constructor
        · rw [(show ((facts, []) : FactSet × List ReasoningStep).1 = facts from rfl)]
          unfold Converged
          rw [(runPass_indep rules facts 0 (i + 1)).2]
          exact hch
        · intro fuel' hf
          cases fuel' with
          | zero => exact absurd hf (by omega)
          | succ m =>
            have hch' : (runPass rules facts (i + 1)).2.2 = false := hch
            rw [runLoop_succ_unchanged m hch']
      | true =>
        have hm := runPass_measure rules facts (i + 1) hch
        have hlt : ((concVocab rules) \ (runPass rules facts (i + 1)).1).card < fuel := by
          omega
        have ih := runLoop_fix fuel rules (runPass rules facts (i + 1)).1 (i + 1) hlt
        rw [runLoop_succ_changed fuel hch]
        constructor
        · exact ih.1
        · intro fuel' hf
          cases fuel' with
          | zero => exact absurd hf (by omega)
          | succ m =>
            have hmn : fuel ≤ m := by omega
            rw [runLoop_succ_changed m hch, ih.2 m hmn]

/- The run method in zeta-reduced form, and its inversion. -/

lemma run_def (e : ReasoningEngine) (initial : FactSet) (m : Nat) :
    e.run initial m =
      (findContradictions e.contradictions (runLoop e.rules initial 0 m).1).map
        (fun c => ⟨(runLoop e.rules initial 0 m).1, (runLoop e.rules initial 0 m).2, c⟩) :=
  rfl

lemma run_eq_some {e : ReasoningEngine} {initial : FactSet} {m : Nat}
    {res : ReasoningResult} (h : e.run initial m = some res) :
    res.final_facts = (runLoop e.rules initial 0 m).1 ∧
      res.steps = (runLoop e.rules initial 0 m).2 ∧
      findContradictions e.contradictions (runLoop e.rules initial 0 m).1 =
        some res.contradictions := by
  rw [run_def] at h
  cases hf : findContradictions e.contradictions (runLoop e.rules initial 0 m).1 with
  | none =>
    rw [hf] at h
    cases h
  | some c =>
    rw [hf] at h
    have h2 : (⟨(runLoop e.rules initial 0 m).1, (runLoop e.rules initial 0 m).2, c⟩ :
        ReasoningResult) = res := by
      exact Option.some.inj h
    rw [← h2]
    exact ⟨rfl, rfl, rfl⟩

/- Store-model lemmas: the loop mutates only the working cell, and the
   working cell tracks the pure model. -/

lemma storeUpdate_length (σ : List FactSet) (w : Nat) (nf : Finset String) :
    (storeUpdate σ w nf).length = σ.length :=
  List.length_set σ w _

lemma storeGet_update_self {σ : List FactSet} {w : Nat} (h : w < σ.length)
    (nf : Finset String) :
    storeGet (storeUpdate σ w nf) w = storeGet σ w ∪ nf := by
  simp [storeGet, storeUpdate, List.getD_eq_getElem?_getD, List.getElem?_set_self h]

lemma storeGet_update_ne {σ : List FactSet} {w j : Nat} (h : w ≠ j)
    (nf : Finset String) :
    storeGet (storeUpdate σ w nf) j = storeGet σ j := by
  unfold storeGet storeUpdate
  rw [List.getD_eq_getElem?_getD, List.getElem?_set_ne h, ← List.getD_eq_getElem?_getD]

lemma runPassStore_nil (σ : List FactSet) (w i : Nat) :
    runPassStore [] σ w i = (σ, [], false) := rfl

lemma runPassStore_cons_skip {r : Rule} {σ : List FactSet} {w : Nat} (rs : List Rule)
    (i : Nat) (h : r.is_applicable (storeGet σ w) = false) :
    runPassStore (r :: rs) σ w i = runPassStore rs σ w i := by
  simp only [runPassStore, h]
  simp

lemma runPassStore_cons_empty {r : Rule} {σ : List FactSet} {w : Nat} (rs : List Rule)
    (i : Nat) (h₁ : r.is_applicable (storeGet σ w) = true)
    (h₂ : r.new_facts_if_applied (storeGet σ w) = ∅) :
    runPassStore (r :: rs) σ w i = runPassStore rs σ w i := by
  simp only [runPassStore, h₁, h₂]
  simp

lemma runPassStore_cons_fire {r : Rule} {σ : List FactSet} {w : Nat} (rs : List Rule)
    (i : Nat) (h₁ : r.is_applicable (storeGet σ w) = true)
    (h₂ : r.new_facts_if_applied (storeGet σ w) ≠ ∅) :
    runPassStore (r :: rs) σ w i =
      ((runPassStore rs (storeUpdate σ w (r.new_facts_if_applied (storeGet σ w))) w i).1,
       ⟨r.name, r.new_facts_if_applied (storeGet σ w), i, r.description, r.citation⟩
         :: (runPassStore rs (storeUpdate σ w (r.new_facts_if_applied (storeGet σ w))) w i).2.1,
       true) := by
  simp only [runPassStore, h₁, h₂]
  simp

lemma runPassStore_length : ∀ (rules : List Rule) (σ : List FactSet) (w i : Nat),
    (runPassStore rules σ w i).1.length = σ.length
  | [], σ, w, i => rfl
  | r :: rs, σ, w, i => by
      cases happ : r.is_applicable (storeGet σ w) with
      | false =>
        rw [runPassStore_cons_skip rs i happ]
        exact runPassStore_length rs σ w i
      | true =>
        by_cases hnf : r.new_facts_if_applied (storeGet σ w) = ∅
        · rw [runPassStore_cons_empty rs i happ hnf]
          exact runPassStore_length rs σ w i
        · rw [runPassStore_cons_fire rs i happ hnf]
          rw [show ∀ a b c, ((a, b, c) :
              List FactSet × List ReasoningStep × Bool).1 = a from fun a b c => rfl]
          rw [runPassStore_length rs _ w i, storeUpdate_length]

lemma runPassStore_frame : ∀ (rules : List Rule) (σ : List FactSet) (w i j : Nat),
    j ≠ w → storeGet (runPassStore rules σ w i).1 j = storeGet σ j
  | [], σ, w, i, j, _ => rfl
  | r :: rs, σ, w, i, j, hj => by
      cases happ : r.is_applicable (storeGet σ w) with
      | false =>
        rw [runPassStore_cons_skip rs i happ]
        exact runPassStore_frame rs σ w i j hj
      | true =>
        by_cases hnf : r.new_facts_if_applied (storeGet σ w) = ∅
        · rw [runPassStore_cons_empty rs i happ hnf]
          exact runPassStore_frame rs σ w i j hj
        · rw [runPassStore_cons_fire rs i happ hnf]
          rw [show ∀ a b c, ((a, b, c) :
              List FactSet × List ReasoningStep × Bool).1 = a from fun a b c => rfl]
          rw [runPassStore_frame rs _ w i j hj, storeGet_update_ne (Ne.symm hj)]

lemma runPassStore_sim : ∀ (rules : List Rule) (σ : List FactSet) (w i : Nat),
    w < σ.length →
      storeGet (runPassStore rules σ w i).1 w = (runPass rules (storeGet σ w) i).1 ∧
        (runPassStore rules σ w i).2.1 = (runPass rules (storeGet σ w) i).2.1 ∧
        (runPassStore rules σ w i).2.2 = (runPass rules (storeGet σ w) i).2.2
  | [], σ, w, i, _ => by
      rw [runPassStore_nil, runPass_nil]
      exact ⟨rfl, rfl, rfl⟩
  | r :: rs, σ, w, i, hw => by
      cases happ : r.is_applicable (storeGet σ w) with
      | false =>
        rw [runPassStore_cons_skip rs i happ, runPass_cons_skip rs i happ]
        exact runPassStore_sim rs σ w i hw
      | true =>
        by_cases hnf : r.new_facts_if_applied (storeGet σ w) = ∅
        · rw [runPassStore_cons_empty rs i happ hnf, runPass_cons_empty rs i happ hnf]
          exact runPassStore_sim rs σ w i hw
        · rw [runPassStore_cons_fire rs i happ hnf, runPass_cons_fire rs i happ hnf]
          have hw' : w < (storeUpdate σ w (r.new_facts_if_applied (storeGet σ w))).length := by
            rw [storeUpdate_length]
            exact hw
          have ih := runPassStore_sim rs
            (storeUpdate σ w (r.new_facts_if_applied (storeGet σ w))) w i hw'
          rw [storeGet_update_self hw] at ih
          exact ⟨ih.1, by rw [ih.2.1], rfl⟩

lemma runLoopStore_length : ∀ (fuel : Nat) (rules : List Rule) (σ : List FactSet)
    (w i : Nat), (runLoopStore rules σ w i fuel).1.length = σ.length
  | 0, rules, σ, w, i => rfl
  | fuel + 1, rules, σ, w, i => by
      simp only [runLoopStore]
      split
      · rw [show ∀ (a : List FactSet) b, ((a, b) :
            List FactSet × List ReasoningStep).1 = a from fun a b => rfl]
        rw [runLoopStore_length fuel rules _ w (i + 1), runPassStore_length]
      · exact runPassStore_length rules σ w (i + 1)

lemma runLoopStore_frame : ∀ (fuel : Nat) (rules : List Rule) (σ : List FactSet)
    (w i j : Nat), j ≠ w →
      storeGet (runLoopStore rules σ w i fuel).1 j = storeGet σ j
  | 0, rules, σ, w, i, j, _ => rfl
  | fuel + 1, rules, σ, w, i, j, hj => by
      simp only [runLoopStore]
      split
      · rw [show ∀ (a : List FactSet) b, ((a, b) :
            List FactSet × List ReasoningStep).1 = a from fun a b => rfl]
        rw [runLoopStore_frame fuel rules _ w (i + 1) j hj,
          runPassStore_frame rules σ w (i + 1) j hj]
      · exact runPassStore_frame rules σ w (i + 1) j hj

lemma runLoopStore_sim : ∀ (fuel : Nat) (rules : List Rule) (σ : List FactSet)
    (w i : Nat), w < σ.length →
      storeGet (runLoopStore rules σ w i fuel).1 w =
          (runLoop rules (storeGet σ w) i fuel).1 ∧
        (runLoopStore rules σ w i fuel).2 = (runLoop rules (storeGet σ w) i fuel).2
  | 0, rules, σ, w, i, _ => ⟨rfl, rfl⟩
  | fuel + 1, rules, σ, w, i, hw => by
      have hsim := runPassStore_sim rules σ w (i + 1) hw
      cases hch : (runPass rules (storeGet σ w) (i + 1)).2.2 with
      | false =>
        rw [runLoop_succ_unchanged fuel hch]
        have hchs : (runPassStore rules σ w (i + 1)).2.2 = false := by
          rw [hsim.2.2]
          exact hch
        have hu := runPass_unchanged rules (storeGet σ w) (i + 1) hch
        simp only [runLoopStore, hchs]
        simp only [Bool.false_eq_true, if_false]
        constructor
        · rw [hsim.1, hu]
        · rw [hsim.2.1, hu]
      | true =>
        rw [runLoop_succ_changed fuel hch]
        have hchs : (runPassStore rules σ w (i + 1)).2.2 = true := by
          rw [hsim.2.2]
          exact hch
        simp only [runLoopStore, hchs]
        simp only [if_true]
        have hw' : w < (runPassStore rules σ w (i + 1)).1.length := by
          rw [runPassStore_length]
          exact hw
        have ih := runLoopStore_sim fuel rules (runPassStore rules σ w (i + 1)).1 w (i + 1) hw'
        rw [hsim.1] at ih
        exact ⟨ih.1, by rw [hsim.2.1, ih.2]⟩

/-- Claim C1: monotonicity of inference.  For every rule library, every
contradiction registry, every initial FactSet and every max_iterations, the
final facts of a completed run contain every initial fact; no input fact is
ever absent from the result. -/
theorem C1_monotonicity (e : ReasoningEngine) (initial : FactSet) (m : Nat)
    (res : ReasoningResult) (h : e.run initial m = some res) :
    initial ⊆ res.final_facts := by
  rw [(run_eq_some h).1]
  exact runLoop_subset m e.rules initial 0

/-- Witness for C1 at a one-rule engine run on the facts containing A. -/
theorem C1_monotonicity_witness :
    ({"A"} : Finset String) ⊆
      (⟨{"A", "B"}, [⟨"b", {"B"}, 1, none, none⟩], ∅⟩ : ReasoningResult).final_facts :=
  C1_monotonicity
    (ReasoningEngine.init [⟨"b", {"A"}, {"B"}, 0, ∅, none, none⟩] [])
    {"A"} 3 ⟨{"A", "B"}, [⟨"b", {"B"}, 1, none, none⟩], ∅⟩ (by decide)

/-- Claim C2 fails as stated: a run truncated by max_iterations does not
produce a fixed point.  With the rules named a (conditions B, conclusion C)
and b (conditions A, conclusion B), sorted in that order, a run from the
facts containing A with max_iterations one stops at the facts A, B, and the
re-run from those facts adds C and records a step. -/
theorem C2_counterexample :
    ((ReasoningEngine.init [⟨"a", {"B"}, {"C"}, 0, ∅, none, none⟩,
        ⟨"b", {"A"}, {"B"}, 0, ∅, none, none⟩] []).run {"A"} 1).map
        (fun r => r.final_facts) = some {"A", "B"}
  ∧ ((ReasoningEngine.init [⟨"a", {"B"}, {"C"}, 0, ∅, none, none⟩,
        ⟨"b", {"A"}, {"B"}, 0, ∅, none, none⟩] []).run {"A", "B"} 1).map
        (fun r => r.final_facts) = some {"A", "B", "C"}
  ∧ ((ReasoningEngine.init [⟨"a", {"B"}, {"C"}, 0, ∅, none, none⟩,
        ⟨"b", {"A"}, {"B"}, 0, ∅, none, none⟩] []).run {"A", "B"} 1).map
        (fun r => r.steps.length) = some 1
  ∧ ({"A", "B", "C"} : Finset String) ≠ {"A", "B"} :=
  ⟨by decide, by decide, by decide, by decide⟩

/-- Claim C2 (amended): re-run idempotence holds for every run whose final
facts are a fixed point of a full rule pass, which is the case exactly when
the first run was not cut off by its iteration cap: re-running the engine
with those final facts, under any cap, returns the same final facts and an
empty step list. -/
theorem C2_rerun_idempotent (e : ReasoningEngine) (initial : FactSet)
    (m₁ m₂ : Nat) (res res2 : ReasoningResult)
    (h₁ : e.run initial m₁ = some res)
    (hconv : Converged e.rules res.final_facts)
    (h₂ : e.run res.final_facts m₂ = some res2) :
    res2.final_facts = res.final_facts ∧ res2.steps = [] := by
  have hl := runLoop_converged_eq e.rules res.final_facts hconv m₂ 0
  have hr := run_eq_some h₂
  constructor
  · rw [hr.1, hl]
  · rw [hr.2.1, hl]

/-- Witness for C2 (amended): the two-rule chain engine converges with cap
ten, and the re-run from its final facts returns them unchanged with no
steps. -/
theorem C2_rerun_idempotent_witness :
    (⟨{"A", "B", "C"}, [], ∅⟩ : ReasoningResult).final_facts =
        (⟨{"A", "B", "C"},
          [⟨"b", {"B"}, 1, none, none⟩, ⟨"a", {"C"}, 2, none, none⟩], ∅⟩ :
            ReasoningResult).final_facts
  ∧ (⟨{"A", "B", "C"}, [], ∅⟩ : ReasoningResult).steps = [] :=
  C2_rerun_idempotent
    (ReasoningEngine.init [⟨"a", {"B"}, {"C"}, 0, ∅, none, none⟩,
      ⟨"b", {"A"}, {"B"}, 0, ∅, none, none⟩] [])
    {"A"} 10 7
    ⟨{"A", "B", "C"},
      [⟨"b", {"B"}, 1, none, none⟩, ⟨"a", {"C"}, 2, none, none⟩], ∅⟩
    ⟨{"A", "B", "C"}, [], ∅⟩
    (by decide) (by decide) (by decide)

/-- Claim C3 fails as stated: when two distinct rules share priority and
name, the stable construction sort preserves their input order, and with a
small cap the two permuted libraries give different final facts.  Both rules
here are named a with priority zero; one library stops at the facts A, B,
the other reaches A, B, C. -/
theorem C3_counterexample :
    ([⟨"a", {"B"}, {"C"}, 0, ∅, none, none⟩, ⟨"a", {"A"}, {"B"}, 0, ∅, none, none⟩] :
        List Rule).Perm
      [⟨"a", {"A"}, {"B"}, 0, ∅, none, none⟩, ⟨"a", {"B"}, {"C"}, 0, ∅, none, none⟩]
  ∧ ((ReasoningEngine.init [⟨"a", {"B"}, {"C"}, 0, ∅, none, none⟩,
        ⟨"a", {"A"}, {"B"}, 0, ∅, none, none⟩] []).run {"A"} 1).map
        (fun r => r.final_facts) = some {"A", "B"}
  ∧ ((ReasoningEngine.init [⟨"a", {"A"}, {"B"}, 0, ∅, none, none⟩,
        ⟨"a", {"B"}, {"C"}, 0, ∅, none, none⟩] []).run {"A"} 1).map
        (fun r => r.final_facts) = some {"A", "B", "C"}
  ∧ ({"A", "B"} : Finset String) ≠ {"A", "B", "C"} :=
  ⟨List.Perm.swap _ _ _, by decide, by decide, by decide⟩

/-- Claim C3 (amended): order-independence of the result holds for every
library without duplicate rule names (the spec declares duplicate names a
configuration error): engines built from permuted rule lists with the same
registered pairs return identical runs, final facts and contradictions
included, for every initial FactSet and every max_iterations. -/
theorem C3_order_independence (l₁ l₂ : List Rule) (pairs : List (String × String))
    (initial : FactSet) (m : Nat) (hperm : l₁.Perm l₂)
    (hnames : ∀ r ∈ l₁, ∀ s ∈ l₁, r.name = s.name → r = s) :
    (ReasoningEngine.init l₁ pairs).run initial m =
      (ReasoningEngine.init l₂ pairs).run initial m := by
  have hsort : sort_rules l₁ = sort_rules l₂ := by
    apply sorted_perm_unique
      ((sort_rules_perm l₁).trans (hperm.trans (sort_rules_perm l₂).symm))
      (sort_rules_sorted l₁) (sort_rules_sorted l₂)
    intro r hr s hs hrs hsr
    exact hnames r ((sort_rules_perm l₁).mem_iff.mp hr)
      s ((sort_rules_perm l₁).mem_iff.mp hs) (ruleLe_antisymm_key hrs hsr).2
  have heq : ReasoningEngine.init l₁ pairs = ReasoningEngine.init l₂ pairs := by
    unfold ReasoningEngine.init
    rw [hsort]
  rw [heq]

/-- Witness for C3 (amended) at the two-rule chain with distinct names. -/
theorem C3_order_independence_witness :
    (ReasoningEngine.init [⟨"a", {"B"}, {"C"}, 0, ∅, none, none⟩,
        ⟨"b", {"A"}, {"B"}, 0, ∅, none, none⟩] []).run {"A"} 1 =
      (ReasoningEngine.init [⟨"b", {"A"}, {"B"}, 0, ∅, none, none⟩,
        ⟨"a", {"B"}, {"C"}, 0, ∅, none, none⟩] []).run {"A"} 1 :=
  C3_order_independence
    [⟨"a", {"B"}, {"C"}, 0, ∅, none, none⟩, ⟨"b", {"A"}, {"B"}, 0, ∅, none, none⟩]
    [⟨"b", {"A"}, {"B"}, 0, ∅, none, none⟩, ⟨"a", {"B"}, {"C"}, 0, ∅, none, none⟩]
    [] {"A"} 1 (List.Perm.swap _ _ _) (by decide)

/-- Claim C4: totality and guaranteed convergence.  For every rule library
and every contradiction registry of pairs of two distinct facts, run returns
a result, and whenever max_iterations exceeds the number of distinct
conclusion facts across the library, the loop exits because a full pass
added no facts: the final facts are a fixed point of a pass, and raising the
cap further does not change the returned result. -/
theorem C4_total_and_convergent (rules : List Rule) (pairs : List (String × String))
    (initial : FactSet) (m : Nat) (hpairs : ∀ p ∈ pairs, p.1 ≠ p.2) :
    ((ReasoningEngine.init rules pairs).run initial m).isSome = true ∧
      ((concVocab rules).card < m →
        Converged (ReasoningEngine.init rules pairs).rules
          (runLoop (ReasoningEngine.init rules pairs).rules initial 0 m).1 ∧
        ∀ m', m ≤ m' →
          (ReasoningEngine.init rules pairs).run initial m' =
            (ReasoningEngine.init rules pairs).run initial m) := by
  constructor
  · rw [run_def]
    have hne := init_contr_ne rules pairs (fun a b hab => hpairs (a, b) hab)
    rw [findContradictions_some _ _ (fun p hp => hne p (Finset.mem_filter.mp hp).1)]
    rfl
  · intro hcard
    have hvocab : concVocab (ReasoningEngine.init rules pairs).rules = concVocab rules := by
      rw [init_rules]
      exact concVocab_perm (sort_rules_perm rules)
    have hlt : ((concVocab (ReasoningEngine.init rules pairs).rules) \ initial).card < m := by
      calc ((concVocab (ReasoningEngine.init rules pairs).rules) \ initial).card
          ≤ (concVocab (ReasoningEngine.init rules pairs).rules).card :=
            Finset.card_le_card Finset.sdiff_subset
        _ = (concVocab rules).card := by rw [hvocab]
        _ < m := hcard
    have hfix := runLoop_fix m (ReasoningEngine.init rules pairs).rules initial 0 hlt
    refine ⟨hfix.1, fun m' hm' => ?_⟩
    rw [run_def, run_def, hfix.2 m' hm']

/-- Witness for C4 at a one-rule library with one well-formed pair and a cap
exceeding the conclusion vocabulary size. -/
theorem C4_total_and_convergent_witness :
    ((ReasoningEngine.init [⟨"b", {"A"}, {"B"}, 0, ∅, none, none⟩] [("P", "Q")]).run
        {"A"} 2).isSome = true
  ∧ Converged (ReasoningEngine.init [⟨"b", {"A"}, {"B"}, 0, ∅, none, none⟩]
      [("P", "Q")]).rules
      (runLoop (ReasoningEngine.init [⟨"b", {"A"}, {"B"}, 0, ∅, none, none⟩]
        [("P", "Q")]).rules {"A"} 0 2).1
  ∧ (ReasoningEngine.init [⟨"b", {"A"}, {"B"}, 0, ∅, none, none⟩] [("P", "Q")]).run
        {"A"} 5 =
      (ReasoningEngine.init [⟨"b", {"A"}, {"B"}, 0, ∅, none, none⟩] [("P", "Q")]).run
        {"A"} 2 := by
  have h := C4_total_and_convergent [⟨"b", {"A"}, {"B"}, 0, ∅, none, none⟩]
    [("P", "Q")] {"A"} 2 (by decide)
  exact ⟨h.1, (h.2 (by decide)).1, (h.2 (by decide)).2 5 (by decide)⟩

/-- Claim C5: contradiction reporting contract.  Registering a pair in
either order gives the same engine, re-registering is a no-op, and in a
completed run the reported pairs are exactly the registered pairs whose two
members both lie in the final facts, each reported as an ascending 2-tuple.
Uniqueness of each reported pair is structural: the registry and the report
are sets. -/
theorem C5_contradiction_contract :
    (∀ (e : ReasoningEngine) (a b : String),
        e.add_contradiction_pair a b = e.add_contradiction_pair b a)
  ∧ (∀ (e : ReasoningEngine) (a b : String),
        (e.add_contradiction_pair a b).add_contradiction_pair a b =
          e.add_contradiction_pair a b)
  ∧ (∀ (rules : List Rule) (pairs : List (String × String)) (initial : FactSet)
        (m : Nat) (res : ReasoningResult),
        (ReasoningEngine.init rules pairs).run initial m = some res →
        (∀ x y, (x, y) ∈ res.contradictions ↔
            ((x, y) ∈ (ReasoningEngine.init rules pairs).contradictions ∧
              x ∈ res.final_facts ∧ y ∈ res.final_facts))
          ∧ ∀ x y, (x, y) ∈ res.contradictions → strLt x y = true) := by
  refine ⟨?_, ?_, ?_⟩
  · intro e a b
    unfold ReasoningEngine.add_contradiction_pair
    rw [normPair_comm]
  · intro e a b
    simp [ReasoningEngine.add_contradiction_pair, Finset.insert_idem]
  · intro rules pairs initial m res h
    have hr := run_eq_some h
    obtain ⟨hcEq, hcNe⟩ := findContradictions_eq_some _ _ _ hr.2.2
    constructor
    · intro x y
      rw [← hr.1] at hcEq
      rw [hcEq, Finset.mem_filter]
    · intro x y hxy
      have hreg : (x, y) ∈ (ReasoningEngine.init rules pairs).contradictions := by
        have := hcEq ▸ hxy
        exact (Finset.mem_filter.mp this).1
      have hnorm := init_contr_norm rules pairs (x, y) hreg
      have hne := hcNe (x, y) hxy
      cases hlt : strLt x y with
      | true => rfl
      | false => exact absurd (strLt_connex hlt hnorm) hne

/-- Witness for C5: symmetry and idempotence of registration at a concrete
engine, and the reporting contract for a run where the single registered
pair is fully contained in the final facts. -/
theorem C5_contradiction_contract_witness :
    (ReasoningEngine.init [] []).add_contradiction_pair ("x") ("y") =
        (ReasoningEngine.init [] []).add_contradiction_pair ("y") ("x")
  ∧ ((ReasoningEngine.init [] []).add_contradiction_pair ("x") ("y")).add_contradiction_pair
        ("x") ("y") =
      (ReasoningEngine.init [] []).add_contradiction_pair ("x") ("y")
  ∧ ((("p", "q") ∈ (⟨{"p", "q"}, [], {("p", "q")}⟩ : ReasoningResult).contradictions ↔
        (("p", "q") ∈ (ReasoningEngine.init [] [("q", "p")]).contradictions ∧
          "p" ∈ (⟨{"p", "q"}, [], {("p", "q")}⟩ : ReasoningResult).final_facts ∧
          "q" ∈ (⟨{"p", "q"}, [], {("p", "q")}⟩ : ReasoningResult).final_facts))
      ∧ (("p", "q") ∈ (⟨{"p", "q"}, [], {("p", "q")}⟩ : ReasoningResult).contradictions →
          strLt ("p") ("q") = true)) := by
  refine ⟨C5_contradiction_contract.1 (ReasoningEngine.init [] []) ("x") ("y"),
    C5_contradiction_contract.2.1 (ReasoningEngine.init [] []) ("x") ("y"), ?_, ?_⟩
  · exact (C5_contradiction_contract.2.2 [] [("q", "p")] {"p", "q"} 1
      ⟨{"p", "q"}, [], {("p", "q")}⟩ (by decide)).1 ("p") ("q")
  · exact (C5_contradiction_contract.2.2 [] [("q", "p")] {"p", "q"} 1
      ⟨{"p", "q"}, [], {("p", "q")}⟩ (by decide)).2 ("p") ("q")

/-- Claim C6: trace minimality and coverage.  In every completed run, no
step carries an empty new_facts set, the new_facts of distinct steps are
pairwise disjoint, and their union is exactly the final facts minus the
initial facts. -/
theorem C6_trace_minimal (e : ReasoningEngine) (initial : FactSet) (m : Nat)
    (res : ReasoningResult) (h : e.run initial m = some res) :
    (∀ s ∈ res.steps, s.new_facts ≠ ∅) ∧
      res.steps.Pairwise (fun s t => Disjoint s.new_facts t.new_facts) ∧
      stepsUnion res.steps = res.final_facts \ initial := by
  have hr := run_eq_some h
  refine ⟨?_, ?_, ?_⟩
  · rw [hr.2.1]
    intro s hs
    exact (runLoop_steps_spec m e.rules initial 0 s hs).1
  · rw [hr.2.1]
    exact runLoop_steps_pairwise m e.rules initial 0
  · rw [hr.2.1, hr.1, runLoop_facts_eq m e.rules initial 0]
    ext x
    simp only [Finset.mem_sdiff, Finset.mem_union]
    constructor
    · intro hx
      refine ⟨Or.inr hx, fun hxi => ?_⟩
      rcases mem_stepsUnion.mp hx with ⟨s, hs, hxs⟩
      exact Finset.disjoint_left.mp
        (runLoop_steps_spec m e.rules initial 0 s hs).2 hxs hxi
    · rintro ⟨h | h, hni⟩
      · exact absurd h hni
      · exact h

/-- Witness for C6 at the two-rule chain run with a large cap. -/
theorem C6_trace_minimal_witness :
    (∀ s ∈ (⟨{"A", "B", "C"},
        [⟨"b", {"B"}, 1, none, none⟩, ⟨"a", {"C"}, 2, none, none⟩], ∅⟩ :
          ReasoningResult).steps, s.new_facts ≠ ∅)
  ∧ ((⟨{"A", "B", "C"},
        [⟨"b", {"B"}, 1, none, none⟩, ⟨"a", {"C"}, 2, none, none⟩], ∅⟩ :
          ReasoningResult).steps).Pairwise
        (fun s t => Disjoint s.new_facts t.new_facts)
  ∧ stepsUnion (⟨{"A", "B", "C"},
        [⟨"b", {"B"}, 1, none, none⟩, ⟨"a", {"C"}, 2, none, none⟩], ∅⟩ :
          ReasoningResult).steps =
      (⟨{"A", "B", "C"},
        [⟨"b", {"B"}, 1, none, none⟩, ⟨"a", {"C"}, 2, none, none⟩], ∅⟩ :
          ReasoningResult).final_facts \ {"A"} :=
  C6_trace_minimal
    (ReasoningEngine.init [⟨"a", {"B"}, {"C"}, 0, ∅, none, none⟩,
      ⟨"b", {"A"}, {"B"}, 0, ∅, none, none⟩] [])
    {"A"} 10
    ⟨{"A", "B", "C"},
      [⟨"b", {"B"}, 1, none, none⟩, ⟨"a", {"C"}, 2, none, none⟩], ∅⟩
    (by decide)

/-- Claim C7: the caller-supplied initial FactSet is never mutated.  In the
explicit-store model of run, the cell of the caller-supplied set holds the
same facts after the call as before it, while the working copy allocated by
the initial clone tracks the pure loop; the two share no cell. -/
theorem C7_no_mutation (rules : List Rule) (σ : List FactSet) (i : Nat)
    (fuel : Nat) (h : i < σ.length) :
    storeGet (runStore rules σ i fuel).1 i = storeGet σ i ∧
      storeGet (runStore rules σ i fuel).1 (runStore rules σ i fuel).2.1 =
        (runLoop rules (storeGet σ i) 0 fuel).1 := by
  have hw : σ.length < (σ ++ [storeGet σ i]).length := by
    rw [List.length_append, List.length_singleton]
    omega
  have hne : i ≠ σ.length := by omega
  have hget1 : storeGet (σ ++ [storeGet σ i]) i = storeGet σ i := by
    show (σ ++ [storeGet σ i]).getD i ∅ = storeGet σ i
    rw [List.getD_eq_getElem?_getD, List.getElem?_append, if_pos h,
      ← List.getD_eq_getElem?_getD]
    rfl
  have hgetw : storeGet (σ ++ [storeGet σ i]) σ.length = storeGet σ i := by
    show (σ ++ [storeGet σ i]).getD σ.length ∅ = storeGet σ i
    rw [List.getD_eq_getElem?_getD, List.getElem?_concat_length, Option.getD_some]
  constructor
  · show storeGet (runLoopStore rules (σ ++ [storeGet σ i]) σ.length 0 fuel).1 i =
      storeGet σ i
    rw [runLoopStore_frame fuel rules (σ ++ [storeGet σ i]) σ.length 0 i hne, hget1]
  · show storeGet (runLoopStore rules (σ ++ [storeGet σ i]) σ.length 0 fuel).1 σ.length =
      (runLoop rules (storeGet σ i) 0 fuel).1
    have hsim := runLoopStore_sim fuel rules (σ ++ [storeGet σ i]) σ.length 0 hw
    rw [hgetw] at hsim
    exact hsim.1

/-- Witness for C7: a one-rule engine run over a one-cell store leaves the
caller cell unchanged while the working cell reaches the pure fixed point. -/
theorem C7_no_mutation_witness :
    storeGet (runStore [⟨"b", {"A"}, {"B"}, 0, ∅, none, none⟩] [{"A"}] 0 2).1 0 =
        storeGet [{"A"}] 0
  ∧ storeGet (runStore [⟨"b", {"A"}, {"B"}, 0, ∅, none, none⟩] [{"A"}] 0 2).1
        (runStore [⟨"b", {"A"}, {"B"}, 0, ∅, none, none⟩] [{"A"}] 0 2).2.1 =
      (runLoop [⟨"b", {"A"}, {"B"}, 0, ∅, none, none⟩] (storeGet [{"A"}] 0) 0 2).1 :=
  C7_no_mutation [⟨"b", {"A"}, {"B"}, 0, ∅, none, none⟩] [{"A"}] 0 2 (by decide)

/-- Claim C8: iteration-cap behaviour.  Hitting the cap is not an error: the
run returns the facts reached so far; with max_iterations zero the loop body
never runs, so the result carries the input facts unchanged, no steps, and
the contradiction scan applied to those input facts. -/
theorem C8_zero_cap (e : ReasoningEngine) (initial : FactSet) :
    e.run initial 0 =
      (findContradictions e.contradictions initial).map
        (fun c => ⟨initial, [], c⟩) ∧
      ∀ res, e.run initial 0 = some res →
        res.final_facts = initial ∧ res.steps = [] ∧
          findContradictions e.contradictions initial = some res.contradictions := by
  refine ⟨rfl, fun res h => ?_⟩
  have hr := run_eq_some h
  exact ⟨hr.1, hr.2.1, hr.2.2⟩

/-- Witness for C8 at an engine whose registered pair is only half present. -/
theorem C8_zero_cap_witness :
    (⟨{"x"}, [], ∅⟩ : ReasoningResult).final_facts = {"x"} ∧
      (⟨{"x"}, [], ∅⟩ : ReasoningResult).steps = [] ∧
      findContradictions (ReasoningEngine.init [] [("x", "y")]).contradictions {"x"} =
        some (⟨{"x"}, [], ∅⟩ : ReasoningResult).contradictions :=
  (C8_zero_cap (ReasoningEngine.init [] [("x", "y")]) {"x"}).2
    ⟨{"x"}, [], ∅⟩ (by decide)

set_option maxHeartbeats 1000000 in
/-- Claim C9: Wnt-activation scenario.  With the default rule library and
the registered pair of the baseline and raised beta-catenin levels, the run
from the Wnt-activation initial facts under the default cap yields final
facts containing the formed signalosome, the phosphorylated and signaling
LRP6 states, and the raised beta-catenin level, and reports that pair as a
contradiction.  Fact token values are modelled from the spec because that
vocab module is not among the sources. -/
theorem C9_wnt_activation :
    (wntEngine.run wntInitial default_max_iterations).map
        (fun r => decide (SIGNALOSOME_STATE_FORMED ∈ r.final_facts)) = some true
  ∧ (wntEngine.run wntInitial default_max_iterations).map
        (fun r => decide (LRP6_SER_SITES_P ∈ r.final_facts)) = some true
  ∧ (wntEngine.run wntInitial default_max_iterations).map
        (fun r => decide (LRP6_SIGNALING_ACTIVE ∈ r.final_facts)) = some true
  ∧ (wntEngine.run wntInitial default_max_iterations).map
        (fun r => decide (BETA_CAT_LEVEL_UP ∈ r.final_facts)) = some true
  ∧ (wntEngine.run wntInitial default_max_iterations).map
        (fun r =>
          decide ((BETA_CAT_LEVEL_BASELINE, BETA_CAT_LEVEL_UP) ∈ r.contradictions)) =
      some true :=
  ⟨by decide, by decide, by decide, by decide, by decide⟩

/-- Claim C10: implicit safety of the contradiction scan.  When every
registered pair has two distinct members, the scan destructuring always
succeeds and run returns a result; a pair registered with equal members is
stored as a one-element frozenset, and the scan fails, run raising, as soon
as that fact is in the final facts. -/
theorem C10_scan_safety (rules : List Rule) (pairs : List (String × String))
    (initial : FactSet) (m : Nat) :
    ((∀ p ∈ pairs, p.1 ≠ p.2) →
        ((ReasoningEngine.init rules pairs).run initial m).isSome = true)
  ∧ ∀ a, (a, a) ∈ pairs →
      a ∈ (runLoop (ReasoningEngine.init rules pairs).rules initial 0 m).1 →
      (ReasoningEngine.init rules pairs).run initial m = none := by
  constructor
  · intro hp
    rw [run_def]
    have hne := init_contr_ne rules pairs (fun a b hab => hp (a, b) hab)
    rw [findContradictions_some _ _ (fun p hpf => hne p (Finset.mem_filter.mp hpf).1)]
    rfl
  · intro a hpa hmem
    rw [run_def]
    have hreg : (a, a) ∈ (ReasoningEngine.init rules pairs).contradictions :=
      (init_contr_mem rules pairs (a, a)).mpr ⟨(a, a), hpa, normPair_self a⟩
    rw [findContradictions_none _ _ a hreg hmem]
    rfl

/-- Witness for C10: a well-formed registry gives a result, and a degenerate
pair whose fact is present makes the run fail. -/
theorem C10_scan_safety_witness :
    ((ReasoningEngine.init [] [("p", "q")]).run {"p", "q"} 1).isSome = true ∧
      (ReasoningEngine.init [] [("z", "z")]).run {"z"} 1 = none :=
  ⟨(C10_scan_safety [] [("p", "q")] {"p", "q"} 1).1 (by decide),
   (C10_scan_safety [] [("z", "z")] {"z"} 1).2 ("z") (by decide) (by decide)⟩
